import Mathlib

/-!
Verification of the quick_livesplit parser (src/run/parser/quick_livesplit.rs).

The parser is embedded shallowly: the XML tokenizer's event stream is a
`List Event`, every combinator is a function from events (and an explicit
state, replacing the Rust closures' captured mutable state) to a `PResult`,
and the domain types (`Run`, `Segment`, `Time`, ...) are plain structures.
Machine integers are `Nat`/`Int` with explicit range checks where the Rust
code can overflow-error. Fallible code returns `PResult`/`Except`.

Pieces of the repository that the parser calls but whose sources are not in
the verified slice (the `TimeSpan` string parser, `base64::decode`, the
chrono date parser, and the `Run`/`Segment` mutators) are modelled from the
specification; each such definition carries a doc comment starting with
`Modelled from the spec:`.
-/

namespace LS

/-- Text is modelled as a list of characters (the Rust code works on `&str`;
all inputs exercised by the claims are ASCII, where byte indices and
character indices coincide). -/
abbrev Str := List Char

/-- `chars s` is the character list of a string literal. -/
def chars (s : String) : Str := s.toList

/-- Fold a digit list into a natural number (no validity check). -/
def digitsToNat (l : Str) : Nat := l.foldl (fun a c => a * 10 + (c.toNat - 48)) 0

/-- Parse a non-empty all-digit string into a natural number. -/
def parseDigits (s : Str) : Option Nat :=
  if !s.isEmpty && s.all Char.isDigit then some (digitsToNat s) else none

/-- Rust `u32::from_str`: optional leading `+`, then digits, value below `2^32`. -/
def parseU32 (s : Str) : Option Nat :=
  let t := match s with
    | '+' :: r => r
    | _ => s
  match parseDigits t with
  | some n => if n < 2 ^ 32 then some n else none
  | none => none

/-- Rust `i32::from_str`: optional sign, digits, value in the `i32` range. -/
def parseI32 (s : Str) : Option Int :=
  match s with
  | '-' :: r =>
    match parseDigits r with
    | some n => if n ≤ 2 ^ 31 then some (-(n : Int)) else none
    | none => none
  | '+' :: r =>
    match parseDigits r with
    | some n => if n < 2 ^ 31 then some (n : Int) else none
    | none => none
  | _ =>
    match parseDigits s with
    | some n => if n < 2 ^ 31 then some (n : Int) else none
    | none => none

/-- Modelled from the spec: the whole-day count in Encoding B ("the substring
before the first `.` is a whole-day count"); parsed as a signed integer. -/
def parseIntStr (s : Str) : Option Int :=
  match s with
  | '-' :: r => (parseDigits r).map (fun n => -(n : Int))
  | '+' :: r => (parseDigits r).map (fun n => (n : Int))
  | _ => (parseDigits s).map (fun n => (n : Int))

/-- Split a character list on a separator character (like Rust `str::split`):
the result is always non-empty and splitting the empty string gives `[[]]`. -/
def splitOnChar (sep : Char) : Str → List Str
  | [] => [[]]
  | c :: cs =>
    if c = sep then [] :: splitOnChar sep cs
    else
      match splitOnChar sep cs with
      | h :: t => (c :: h) :: t
      | [] => [[c]]

/-- Index of the first occurrence of a character (Rust `str::find`). -/
def strFind (ch : Char) : Str → Option Nat
  | [] => none
  | c :: cs => if c = ch then some 0 else (strFind ch cs).map (· + 1)

/-- Modelled from the spec: "TimeSpan — a signed duration with sub-second
precision". Modelled as integer nanoseconds (the precision of the `time`
crate's `Duration` that the repository's `TimeSpan` wraps). -/
abbrev TimeSpan := Int

/-- Nanoseconds in one second. -/
def nanosPerSecond : Int := 1000000000

/-- Modelled from the spec: "construction from a whole-day count plus a
sub-day time-of-day" — `TimeSpan::from_days`. -/
def fromDays (d : Int) : TimeSpan := d * 86400 * nanosPerSecond

/-- Parse an unsigned decimal number (digits, optionally a `.` and fraction
digits) into nanoseconds; fraction digits beyond the ninth are truncated. -/
def parseDecCore (s : Str) : Option Int :=
  let ip := s.takeWhile Char.isDigit
  let rest := s.dropWhile Char.isDigit
  match rest with
  | [] => if ip.isEmpty then none else some ((digitsToNat ip : Int) * nanosPerSecond)
  | '.' :: fp =>
    if (ip.isEmpty && fp.isEmpty) || !fp.all Char.isDigit then none
    else
      some ((digitsToNat ip : Int) * nanosPerSecond
        + (digitsToNat (fp.take 9) * 10 ^ (9 - min 9 fp.length) : Nat))
  | _ => none

/-- Modelled from the spec: the repository's `TimeSpan` `FromStr`, which is
not part of the verified slice. Per the spec it accepts "a plain signed
decimal number of seconds (fractional allowed)" (Encoding A) and a
colon-separated time-of-day (the Encoding B remainder "parses as a
time-of-day"); the non-optional combinator "defaults absent-text to zero
duration", so empty text parses as zero. -/
def timeSpanFromStr (s : Str) : Option TimeSpan :=
  if s.isEmpty then some 0
  else
    let (neg, t) := match s with
      | '-' :: r => (true, r)
      | _ => (false, s)
    match (splitOnChar ':' t).foldlM
      (fun acc p => (parseDecCore p).map (fun v => 60 * acc + v)) (0 : Int) with
    | some q => some (if neg then -q else q)
    | none => none

/-- The parser's error type (the `quick_error!` enum in the source; the
`Utf8Str`/`Utf8String` pair is collapsed into one constructor and the payloads
of the wrapped lower-level errors are dropped). -/
inductive Error where
  | Xml
  | Bool
  | UnexpectedEndOfFile
  | UnexpectedInnerTag
  | AttributeNotFound
  | Utf8
  | Int
  | Float
  | Time
  | Date
deriving DecidableEq, Repr

instance {ε α : Type} [DecidableEq ε] [DecidableEq α] : DecidableEq (Except ε α) :=
  fun a b =>
    match a, b with
    | .ok x, .ok y =>
      if h : x = y then .isTrue (by rw [h])
      else .isFalse (fun hh => h (by cases hh; rfl))
    | .error x, .error y =>
      if h : x = y then .isTrue (by rw [h])
      else .isFalse (fun hh => h (by cases hh; rfl))
    | .ok _, .error _ => .isFalse (fun hh => Except.noConfusion hh)
    | .error _, .ok _ => .isFalse (fun hh => Except.noConfusion hh)

/-- The quick-xml event vocabulary as consumed by the parser: element-open
(with its decoded name and attribute list), element-close, text-or-CDATA, and
a catch-all for the event kinds the parser skips (comments, declarations,
...). End-of-input is the end of the list. -/
inductive Event where
  | start (name : Str) (attrs : List (Str × Str))
  | close
  | text (t : Str)
  | other
deriving DecidableEq, Repr

/-- Outcome of running a combinator on an event list: success with the updated
state and the not-yet-consumed events, a propagated `Error`, an aborted run
(models a Rust panic, which unwinds without returning a value), or exhausted
fuel (an artifact of the embedding of the source's unbounded loops; every
theorem either holds for all fuel or supplies enough fuel for its input). -/
inductive PResult (σ : Type) where
  | ok (s : σ) (rest : List Event)
  | err (e : Error)
  | aborted
  | fuelOut
deriving DecidableEq, Repr

/-- The body of the closure inside `time_span`: dispatch between Encoding B
(both `.` and `:` present and the first `.` before the first `:`) and
Encoding A (everything else), exactly as the source writes it. -/
def parseTimeSpanText (t : Str) : Except Error TimeSpan :=
  match strFind '.' t, strFind ':' t with
  | some d, some c =>
    if d < c then
      match parseIntStr (t.take d) with
      | none => .error .Time
      | some days =>
        match timeSpanFromStr (t.drop (d + 1)) with
        | none => .error .Time
        | some ts => .ok (fromDays days + ts)
    else
      match timeSpanFromStr t with
      | some ts => .ok ts
      | none => .error .Time
  | _, _ =>
    match timeSpanFromStr t with
    | some ts => .ok ts
    | none => .error .Time

/-- The body of the closure inside `time_span_opt`: empty text is `none`,
otherwise the same two-encoding dispatch as `parseTimeSpanText`. -/
def parseTimeSpanOptText (t : Str) : Except Error (Option TimeSpan) :=
  if t.isEmpty then .ok none
  else
    match strFind '.' t, strFind ':' t with
    | some d, some c =>
      if d < c then
        match parseIntStr (t.take d) with
        | none => .error .Time
        | some days =>
          match timeSpanFromStr (t.drop (d + 1)) with
          | none => .error .Time
          | some ts => .ok (some (fromDays days + ts))
      else
        match timeSpanFromStr t with
        | some ts => .ok (some ts)
        | none => .error .Time
    | _, _ =>
      match timeSpanFromStr t with
      | some ts => .ok (some ts)
      | none => .error .Time

/-- The characters strictly before the first occurrence of `ch`. -/
def takeUntilChar (ch : Char) : Str → Str
  | [] => []
  | c :: cs => if c = ch then [] else c :: takeUntilChar ch cs

/-- The suffix starting at the first occurrence of `ch` (or `[]`). -/
def dropUntilChar (ch : Char) : Str → Str
  | [] => []
  | c :: cs => if c = ch then c :: cs else dropUntilChar ch cs

/-- Written from the spec's words for Encoding B, for comparison with the
source's dispatch: "the substring before the first `.` is a whole-day count,
the remainder parses as a time-of-day and is added to that many days". -/
def specEncodingB (t : Str) : Except Error TimeSpan :=
  match parseIntStr (takeUntilChar '.' t) with
  | none => .error .Time
  | some days =>
    match timeSpanFromStr ((dropUntilChar '.' t).drop 1) with
    | none => .error .Time
    | some ts => .ok (fromDays days + ts)

/-- Written from the spec's words for Encoding A: the whole text is "a plain
signed decimal number of seconds" handed to the `TimeSpan` string parser. -/
def encodingA (t : Str) : Except Error TimeSpan :=
  match timeSpanFromStr t with
  | some ts => .ok ts
  | none => .error .Time

/-- The Encoding B trigger, written from the spec's words: the text contains
both `.` and `:` and the first `.` occurs before the first `:`. -/
def dotBeforeColon (t : Str) : Bool :=
  match strFind '.' t, strFind ':' t with
  | some d, some c => d < c
  | _, _ => false

/-- The 4-component version (tuple struct `Version` in the source). -/
structure Version where
  a : Nat
  b : Nat
  c : Nat
  d : Nat
deriving DecidableEq, Repr

/-- The derived lexicographic strict order on `Version` 4-tuples. -/
def Version.ltb (x y : Version) : Bool :=
  x.a < y.a || (x.a = y.a && (x.b < y.b || (x.b = y.b &&
    (x.c < y.c || (x.c = y.c && x.d < y.d)))))

/-- `x >= y` for versions (a total order, so `¬ x < y`). -/
def Version.geb (x y : Version) : Bool := !(Version.ltb x y)

/-- Zip the default components `[1, 0, 0, 0]` with the dot-separated split:
each paired component must parse as `u32`; splits beyond the fourth are never
visited (the Rust `zip` stops when the 4-element array side is exhausted). -/
def zipParse : List Nat → List Str → Except Error (List Nat)
  | ds, [] => .ok ds
  | [], _ => .ok []
  | _ :: ds, c :: cs =>
    match parseU32 c with
    | some n => (zipParse ds cs).map (fun l => n :: l)
    | none => .error .Int

/-- `parse_version` from the source: split on `.`, overwrite the defaults
`Version(1, 0, 0, 0)` component-wise. -/
def parse_version (s : Str) : Except Error Version :=
  (zipParse [1, 0, 0, 0] (splitOnChar '.' s)).map
    (fun l => ⟨l.getD 0 1, l.getD 1 0, l.getD 2 0, l.getD 3 0⟩)

/-- The version attribute handling in `parse`: a missing `version` attribute
leaves the default `Version(1, 0, 0, 0)`; a present one goes through
`parse_version`. -/
def computeVersion (attrs : List (Str × Str)) : Except Error Version :=
  match (attrs.find? (fun p => p.1 = chars "version")).map (fun p => p.2) with
  | none => .ok ⟨1, 0, 0, 0⟩
  | some t => parse_version t

/-- `parse_bool` from the source: exactly the literals `True` and `False`. -/
def parse_bool (s : Str) : Except Error Bool :=
  if s = chars "True" then .ok true
  else if s = chars "False" then .ok false
  else .error .Bool

/-- Modelled from the spec: the chrono `%m/%d/%Y %T` date-time grammar used
for attempt `started`/`ended` attributes (the chrono parser is not part of
the verified slice). -/
structure DateTimeM where
  month : Nat
  day : Nat
  year : Nat
  hour : Nat
  minute : Nat
  second : Nat
deriving DecidableEq, Repr

/-- Modelled from the spec: parse a `month/day/year hour:minute:second`
date-time; any deviation is a `Date` error. -/
def parse_date_time (s : Str) : Except Error DateTimeM :=
  match splitOnChar ' ' s with
  | [datePart, timePart] =>
    match splitOnChar '/' datePart, splitOnChar ':' timePart with
    | [m, d, y], [h, mi, se] =>
      match parseDigits m, parseDigits d, parseDigits y,
          parseDigits h, parseDigits mi, parseDigits se with
      | some mv, some dv, some yv, some hv, some miv, some sev =>
        if 1 ≤ mv ∧ mv ≤ 12 ∧ 1 ≤ dv ∧ dv ≤ 31 ∧ hv ≤ 23 ∧ miv ≤ 59 ∧ sev ≤ 60 then
          .ok ⟨mv, dv, yv, hv, miv, sev⟩
        else .error .Date
      | _, _, _, _, _, _ => .error .Date
    | _, _ => .error .Date
  | _ => .error .Date

/-- A wall-clock time paired with its "synced" flag (`AtomicDateTime`). -/
structure AtomicDateTime where
  time : DateTimeM
  synced : Bool
deriving DecidableEq, Repr

/-- A pair of independently optional durations (`Time` in the data model). -/
structure Time where
  real_time : Option TimeSpan := none
  game_time : Option TimeSpan := none
deriving DecidableEq, Repr

/-- `Time::with_real_time`. -/
def Time.with_real_time (t : Time) (v : Option TimeSpan) : Time :=
  { t with real_time := v }

/-- One historical attempt (index, times, optional pause and bounds). -/
structure Attempt where
  index : Int
  time : Time
  started : Option AtomicDateTime
  ended : Option AtomicDateTime
  pause_time : Option TimeSpan
deriving DecidableEq, Repr

/-- Run metadata (id, platform, emulator flag, region, variables). -/
structure RunMetadata where
  run_id : Str := []
  platform_name : Str := []
  uses_emulator : Bool := false
  region_name : Str := []
  vars : List (Str × Str) := []
deriving DecidableEq, Repr

/-- Modelled from the spec: the `RunMetadata` setters. -/
def RunMetadata.set_run_id (m : RunMetadata) (v : Str) : RunMetadata :=
  { m with run_id := v }

/-- Modelled from the spec: sets the platform name. -/
def RunMetadata.set_platform_name (m : RunMetadata) (v : Str) : RunMetadata :=
  { m with platform_name := v }

/-- Modelled from the spec: sets the emulator-usage flag. -/
def RunMetadata.set_emulator_usage (m : RunMetadata) (v : Bool) : RunMetadata :=
  { m with uses_emulator := v }

/-- Modelled from the spec: sets the region name. -/
def RunMetadata.set_region_name (m : RunMetadata) (v : Str) : RunMetadata :=
  { m with region_name := v }

/-- Modelled from the spec: variables are an append-only ordered list. -/
def RunMetadata.add_variable (m : RunMetadata) (k v : Str) : RunMetadata :=
  { m with vars := m.vars ++ [(k, v)] }

/-- Replace the value at a string key, or append it (map with unique keys). -/
def upsertStr (k : Str) (v : Time) : List (Str × Time) → List (Str × Time)
  | [] => [(k, v)]
  | (k2, v2) :: rest =>
    if k2 = k then (k2, v) :: rest else (k2, v2) :: upsertStr k v rest

/-- Replace the value at an integer key, or append it ("last write wins"). -/
def upsertInt (k : Int) (v : Time) : List (Int × Time) → List (Int × Time)
  | [] => [(k, v)]
  | (k2, v2) :: rest =>
    if k2 = k then (k2, v) :: rest else (k2, v2) :: upsertInt k v rest

/-- One segment. The icon field stores what the source's `image` combinator
hands to `set_icon`, which is the raw element text (see `image`). -/
structure Segment where
  name : Str := []
  icon : Str := []
  personal_best_split_time : Time := {}
  best_segment_time : Time := {}
  comparisons : List (Str × Time) := []
  segment_history : List (Int × Time) := []
deriving DecidableEq, Repr

/-- The root aggregate. -/
structure Run where
  game_icon : Str := []
  game_name : Str := []
  category_name : Str := []
  offset : TimeSpan := 0
  attempt_count : Nat := 0
  attempts : List Attempt := []
  custom_comparisons : List Str := []
  segments : List Segment := []
  metadata : RunMetadata := {}
  path : Option Str := none
deriving DecidableEq, Repr

/-- `Run::new`. -/
def Run.new : Run := {}

/-- Modelled from the spec: `Run` setters (the `Run` impl is not part of the
verified slice). -/
def Run.set_game_icon (r : Run) (v : Str) : Run := { r with game_icon := v }

/-- Modelled from the spec: sets the game name. -/
def Run.set_game_name (r : Run) (v : Str) : Run := { r with game_name := v }

/-- Modelled from the spec: sets the category name. -/
def Run.set_category_name (r : Run) (v : Str) : Run :=
  { r with category_name := v }

/-- Modelled from the spec: sets the start offset. -/
def Run.set_offset (r : Run) (v : TimeSpan) : Run := { r with offset := v }

/-- Modelled from the spec: sets the attempt count (a `u32`). -/
def Run.set_attempt_count (r : Run) (v : Nat) : Run :=
  { r with attempt_count := v }

/-- Modelled from the spec: sets the optional source path. -/
def Run.set_path (r : Run) (p : Option Str) : Run := { r with path := p }

/-- Modelled from the spec: appends a segment in document order. -/
def Run.push_segment (r : Run) (s : Segment) : Run :=
  { r with segments := r.segments ++ [s] }

/-- Modelled from the spec: custom comparison names form a set. -/
def Run.add_custom_comparison (r : Run) (name : Str) : Run :=
  if name ∈ r.custom_comparisons then r
  else { r with custom_comparisons := r.custom_comparisons ++ [name] }

/-- Modelled from the spec: appends one attempt to the attempt history
(argument order as in the source call sites: time, index, started, ended,
pause). -/
def Run.add_attempt_with_index (r : Run) (time : Time) (index : Int)
    (started ended : Option AtomicDateTime) (pause : Option TimeSpan) : Run :=
  { r with attempts := r.attempts ++ [⟨index, time, started, ended, pause⟩] }

/-- Modelled from the spec: the value of one base64 alphabet character
(standard alphabet, RFC 4648). -/
def b64Val (c : Char) : Option Nat :=
  if 'A' ≤ c ∧ c ≤ 'Z' then some (c.toNat - 65)
  else if 'a' ≤ c ∧ c ≤ 'z' then some (c.toNat - 97 + 26)
  else if '0' ≤ c ∧ c ≤ '9' then some (c.toNat - 48 + 52)
  else if c = '+' then some 62
  else if c = '/' then some 63
  else none

/-- Modelled from the spec: `base64::decode` with the standard alphabet and
mandatory padding; `none` on any malformed input. The decoded output is a
list of bytes. -/
def base64Decode : Str → Option (List Nat)
  | [] => some []
  | a :: b :: c :: d :: rest =>
    match b64Val a, b64Val b with
    | some va, some vb =>
      if c = '=' then
        if d = '=' ∧ rest = [] then some [va * 4 + vb / 16] else none
      else
        match b64Val c with
        | some vc =>
          if d = '=' then
            if rest = [] then some [va * 4 + vb / 16, (vb % 16) * 16 + vc / 4]
            else none
          else
            match b64Val d with
            | some vd =>
              (base64Decode rest).map (fun tl =>
                (va * 4 + vb / 16) :: ((vb % 16) * 16 + vc / 4)
                  :: ((vc % 4) * 64 + vd) :: tl)
            | none => none
        | none => none
    | _, _ => none
  | _ => none

/-- What the decode step inside `image` produces for a given element text:
either the contents of the scratch buffer afterwards, or an abort when the
Rust slice expression `data[2..data.len() - 1]` is out of bounds (slicing
panics when the start exceeds the end, i.e. whenever fewer than 3 bytes were
decoded). -/
inductive ImageOut where
  | bytes (bs : List Nat)
  | oob
deriving DecidableEq, Repr

/-- The post-text part of the `image` combinator: texts shorter than 216
characters leave the buffer empty; otherwise the suffix from offset 212 is
base64-decoded, a failed decode leaves the buffer empty, and a successful
decode of `n` bytes is sliced as `data[2..n - 1]` — which is out of bounds
(a panic) when `n < 3`. -/
def imageDecodeStep (txt : Str) : ImageOut :=
  if 216 ≤ txt.length then
    match base64Decode (txt.drop 212) with
    | some data =>
      if 3 ≤ data.length then .bytes ((data.drop 2).take (data.length - 3))
      else .oob
    | none => .bytes []
  else .bytes []

/-- `end_tag_immediately`: skip non-element events until the current
element's close; a nested open is fatal. -/
def end_tag_immediately : List Event → PResult Unit
  | [] => .err .UnexpectedEndOfFile
  | .start _ _ :: _ => .err .UnexpectedInnerTag
  | .close :: rest => .ok () rest
  | _ :: rest => end_tag_immediately rest

/-- The depth-tracking loop of `end_tag`. -/
def end_tag_go (depth : Nat) : List Event → PResult Unit
  | [] => .err .UnexpectedEndOfFile
  | .start _ _ :: rest => end_tag_go (depth + 1) rest
  | .close :: rest =>
    match depth with
    | 0 => .ok () rest
    | d + 1 => end_tag_go d rest
  | _ :: rest => end_tag_go depth rest

/-- `end_tag`: discard the current element's whole subtree by tracking
open/close depth until the matching close. -/
def end_tag (es : List Event) : PResult Unit := end_tag_go 0 es

/-- Skip the current element's subtree and keep the state unchanged (the
pervasive `end_tag(reader, buf)` call pattern of the builders). -/
def skipKeep {σ : Type} (s : σ) (es : List Event) : PResult σ :=
  match end_tag es with
  | .ok _ rest => .ok s rest
  | .err e => .err e
  | .aborted => .aborted
  | .fuelOut => .fuelOut

/-- `text_err`: expects one text/CDATA event (or an immediate close, read as
empty text) and then the element's close; the callback may fail. -/
def text_err {σ : Type} (f : Str → σ → Except Error σ) :
    List Event → σ → PResult σ
  | [], _ => .err .UnexpectedEndOfFile
  | .start _ _ :: _, _ => .err .UnexpectedInnerTag
  | .close :: rest, s =>
    match f [] s with
    | .ok s2 => .ok s2 rest
    | .error e => .err e
  | .text t :: rest, s =>
    match f t s with
    | .ok s2 =>
      match end_tag_immediately rest with
      | .ok _ rest2 => .ok s2 rest2
      | .err e => .err e
      | .aborted => .aborted
      | .fuelOut => .fuelOut
    | .error e => .err e
  | .other :: rest, s => text_err f rest s

/-- `text`: `text_err` with an infallible callback. -/
def text {σ : Type} (f : Str → σ → σ) (es : List Event) (s : σ) : PResult σ :=
  text_err (fun t st => .ok (f t st)) es s

/-- `time_span`: read one element's text and decode it with the two-encoding
dispatch. -/
def time_span {σ : Type} (f : TimeSpan → σ → σ) (es : List Event) (s : σ) :
    PResult σ :=
  text_err (fun t st =>
    match parseTimeSpanText t with
    | .ok ts => .ok (f ts st)
    | .error e => .error e) es s

/-- `time_span_opt`: like `time_span` but empty text is `none`. -/
def time_span_opt {σ : Type} (f : Option TimeSpan → σ → σ) (es : List Event)
    (s : σ) : PResult σ :=
  text_err (fun t st =>
    match parseTimeSpanOptText t with
    | .ok ts => .ok (f ts st)
    | .error e => .error e) es s

/-- `image`: read the element text into the string buffer, run the decode
step on it (whose decoded bytes go into the scratch buffer and are not used
further, but whose slice can panic), then hand the raw text to the callback
(the source calls `f(str_buf)`). -/
def image {σ : Type} (f : Str → σ → σ) (es : List Event) (s : σ) : PResult σ :=
  match text (fun t (_ : Str) => t) es [] with
  | .ok txt rest =>
    match imageDecodeStep txt with
    | .oob => .aborted
    | .bytes _ => .ok (f txt s) rest
  | .err e => .err e
  | .aborted => .aborted
  | .fuelOut => .fuelOut

/-- `parse_children`: repeatedly hand each child element (name, attributes,
following events) to the callback until the parent's close. The `fuel`
argument bounds the number of loop iterations; it is an artifact of the
embedding (the callback decides how many events a child consumes, so the
recursion is not structural). -/
def parse_children {σ : Type}
    (f : Str → List (Str × Str) → List Event → σ → PResult σ) :
    Nat → List Event → σ → PResult σ
  | 0, _, _ => .fuelOut
  | _ + 1, [], _ => .err .UnexpectedEndOfFile
  | fuel + 1, .start n attrs :: rest, s =>
    match f n attrs rest s with
    | .ok s2 rest2 => parse_children f fuel rest2 s2
    | .err e => .err e
    | .aborted => .aborted
    | .fuelOut => .fuelOut
  | _ + 1, .close :: rest, s => .ok s rest
  | fuel + 1, _ :: rest, s => parse_children f fuel rest s

/-- `parse_base`: skip events until the first element-open and hand it to the
callback once. -/
def parse_base {σ : Type}
    (f : Str → List (Str × Str) → List Event → σ → PResult σ) :
    List Event → σ → PResult σ
  | [], _ => .err .UnexpectedEndOfFile
  | .start n attrs :: rest, s => f n attrs rest s
  | _ :: rest, s => parse_base f rest s

/-- Attribute lookup: the value of the first attribute with the given key
(`parse_attributes` stops at the first match in `attribute_err` and
`optional_attribute_err`). -/
def attr_find (attrs : List (Str × Str)) (key : Str) : Option Str :=
  (attrs.find? (fun p => p.1 = key)).map (fun p => p.2)

/-- `time`: read a `Time` from `RealTime`/`GameTime` children, skipping
anything else, then hand it to the callback. -/
def time {σ : Type} (fuel : Nat) (f : Time → σ → σ) (es : List Event) (s : σ) :
    PResult σ :=
  match parse_children (fun n _ rest (t : Time) =>
      if n = chars "RealTime" then
        time_span_opt (fun v t => { t with real_time := v }) rest t
      else if n = chars "GameTime" then
        time_span_opt (fun v t => { t with game_time := v }) rest t
      else skipKeep t rest) fuel es ({} : Time) with
  | .ok t rest => .ok (f t s) rest
  | .err e => .err e
  | .aborted => .aborted
  | .fuelOut => .fuelOut

/-- `time_old`: one optional time span, decoded into the real-time slot. -/
def time_old {σ : Type} (f : Time → σ → σ) (es : List Event) (s : σ) :
    PResult σ :=
  time_span_opt (fun t st => f (Time.with_real_time {} t) st) es s

/-- `parse_metadata`: only entered for version ≥ 1.6.0.0, otherwise the whole
subtree is skipped. Inside, `Run` needs a required `id` attribute, `Platform`
needs a required `usesEmulator` boolean attribute (via `attribute_err`) and
takes its text as the platform name, `Region` takes text, and `Variables`
children each need a required `name` attribute and append their text. -/
def parse_metadata (version : Version) (fuel : Nat) (es : List Event)
    (md : RunMetadata) : PResult RunMetadata :=
  if Version.geb version ⟨1, 6, 0, 0⟩ then
    parse_children (fun n attrs rest md =>
      if n = chars "Run" then
        match attr_find attrs (chars "id") with
        | none => .err .AttributeNotFound
        | some v => skipKeep (md.set_run_id v) rest
      else if n = chars "Platform" then
        match attr_find attrs (chars "usesEmulator") with
        | none => .err .AttributeNotFound
        | some v =>
          match parse_bool v with
          | .error e => .err e
          | .ok b => text (fun t md => md.set_platform_name t) rest
              (md.set_emulator_usage b)
      else if n = chars "Region" then
        text (fun t md => md.set_region_name t) rest md
      else if n = chars "Variables" then
        parse_children (fun _ attrs2 rest2 md =>
          match attr_find attrs2 (chars "name") with
          | none => .err .AttributeNotFound
          | some nm => text (fun v md => md.add_variable nm v) rest2 md)
          fuel rest md
      else skipKeep md rest) fuel es md
  else skipKeep md es

/-- `parse_segment`: builds one `Segment`, also mutating the `Run` (for
`add_custom_comparison`), with the 1.3.0.0 and 1.4.1.0 gates of the source. -/
def parse_segment (version : Version) (fuel : Nat) (es : List Event)
    (run : Run) : PResult (Segment × Run) :=
  parse_children (fun n _ rest (st : Segment × Run) =>
    if n = chars "Name" then
      text (fun t st => ({ st.1 with name := t }, st.2)) rest st
    else if n = chars "Icon" then
      image (fun i st => ({ st.1 with icon := i }, st.2)) rest st
    else if n = chars "SplitTimes" then
      if Version.geb version ⟨1, 3, 0, 0⟩ then
        parse_children (fun n2 attrs2 rest2 (st : Segment × Run) =>
          if n2 = chars "SplitTime" then
            match attr_find attrs2 (chars "name") with
            | none => .err .AttributeNotFound
            | some nm =>
              let st2 := (st.1, st.2.add_custom_comparison nm)
              if Version.geb version ⟨1, 4, 1, 0⟩ then
                time fuel (fun t st =>
                  ({ st.1 with comparisons := upsertStr nm t st.1.comparisons },
                    st.2)) rest2 st2
              else
                time_old (fun t st =>
                  ({ st.1 with comparisons := upsertStr nm t st.1.comparisons },
                    st.2)) rest2 st2
          else skipKeep st rest2) fuel rest st
      else skipKeep st rest
    else if n = chars "PersonalBestSplitTime" then
      if Version.ltb version ⟨1, 3, 0, 0⟩ then
        time_old (fun t st =>
          ({ st.1 with personal_best_split_time := t }, st.2)) rest st
      else skipKeep st rest
    else if n = chars "BestSegmentTime" then
      if Version.geb version ⟨1, 4, 1, 0⟩ then
        time fuel (fun t st =>
          ({ st.1 with best_segment_time := t }, st.2)) rest st
      else
        time_old (fun t st =>
          ({ st.1 with best_segment_time := t }, st.2)) rest st
    else if n = chars "SegmentHistory" then
      parse_children (fun _ attrs2 rest2 (st : Segment × Run) =>
        match attr_find attrs2 (chars "id") with
        | none => .err .AttributeNotFound
        | some idt =>
          match parseI32 idt with
          | none => .err .Int
          | some index =>
            if Version.geb version ⟨1, 4, 1, 0⟩ then
              time fuel (fun t st =>
                ({ st.1 with
                    segment_history := upsertInt index t st.1.segment_history },
                  st.2)) rest2 st
            else
              time_old (fun t st =>
                ({ st.1 with
                    segment_history := upsertInt index t st.1.segment_history },
                  st.2)) rest2 st) fuel rest st
    else skipKeep st rest) fuel es (({} : Segment), run)

/-- `parse_run_history`: skipped wholesale for version ≥ 1.5.0.0; for
1.4.1.0 ≤ version < 1.5.0.0 each child with a required integer `id` has a
`time` body; below 1.4.1.0 the body is `time_old`. Each child appends one
attempt with only its `Time` populated. -/
def parse_run_history (version : Version) (fuel : Nat) (es : List Event)
    (run : Run) : PResult Run :=
  if Version.geb version ⟨1, 5, 0, 0⟩ then
    skipKeep run es
  else if Version.geb version ⟨1, 4, 1, 0⟩ then
    parse_children (fun _ attrs rest (run : Run) =>
      match attr_find attrs (chars "id") with
      | none => .err .AttributeNotFound
      | some idt =>
        match parseI32 idt with
        | none => .err .Int
        | some index =>
          time fuel (fun t run =>
            run.add_attempt_with_index t index none none none) rest run)
      fuel es run
  else
    parse_children (fun _ attrs rest (run : Run) =>
      match attr_find attrs (chars "id") with
      | none => .err .AttributeNotFound
      | some idt =>
        match parseI32 idt with
        | none => .err .Int
        | some index =>
          time_old (fun t run =>
            run.add_attempt_with_index t index none none none) rest run)
      fuel es run

/-- The attribute state accumulated over one attempt-history child's
attribute list. -/
structure AttemptAttrs where
  index : Option Int := none
  started : Option DateTimeM := none
  started_synced : Bool := false
  ended : Option DateTimeM := none
  ended_synced : Bool := false
deriving DecidableEq, Repr

/-- One step of the `parse_attributes` scan of an attempt-history child:
`id`, `started`, `isStartedSynced`, `ended`, `isEndedSynced` update their
slots, anything else is ignored; the scan continues over all attributes. -/
def attemptAttrOne (aa : AttemptAttrs) (kv : Str × Str) :
    Except Error AttemptAttrs :=
  if kv.1 = chars "id" then
    match parseI32 kv.2 with
    | some n => .ok { aa with index := some n }
    | none => .error .Int
  else if kv.1 = chars "started" then
    (parse_date_time kv.2).map (fun d => { aa with started := some d })
  else if kv.1 = chars "isStartedSynced" then
    (parse_bool kv.2).map (fun b => { aa with started_synced := b })
  else if kv.1 = chars "ended" then
    (parse_date_time kv.2).map (fun d => { aa with ended := some d })
  else if kv.1 = chars "isEndedSynced" then
    (parse_bool kv.2).map (fun b => { aa with ended_synced := b })
  else .ok aa

/-- `parse_attempt_history`: only entered for version ≥ 1.5.0.0 (earlier
versions skip the subtree). Each child's attributes are scanned, `id` is
required, the body's `RealTime`/`GameTime`/`PauseTime` children fill the
attempt, and one attempt is appended with index, times, pause and the
sync-tagged bounds. -/
def parse_attempt_history (version : Version) (fuel : Nat) (es : List Event)
    (run : Run) : PResult Run :=
  if Version.geb version ⟨1, 5, 0, 0⟩ then
    parse_children (fun _ attrs rest (run : Run) =>
      match attrs.foldlM attemptAttrOne ({} : AttemptAttrs) with
      | .error e => .err e
      | .ok aa =>
        match aa.index with
        | none => .err .AttributeNotFound
        | some index =>
          match parse_children (fun n2 _ rest2 (st : Time × Option TimeSpan) =>
              if n2 = chars "RealTime" then
                time_span_opt (fun v st => ({ st.1 with real_time := v }, st.2))
                  rest2 st
              else if n2 = chars "GameTime" then
                time_span_opt (fun v st => ({ st.1 with game_time := v }, st.2))
                  rest2 st
              else if n2 = chars "PauseTime" then
                time_span_opt (fun v st => (st.1, v)) rest2 st
              else skipKeep st rest2) fuel rest (({} : Time), none) with
          | .ok (t, pause) rest2 =>
            let started := aa.started.map (fun d => AtomicDateTime.mk d aa.started_synced)
            let ended := aa.ended.map (fun d => AtomicDateTime.mk d aa.ended_synced)
            .ok (run.add_attempt_with_index t index started ended pause) rest2
          | .err e => .err e
          | .aborted => .aborted
          | .fuelOut => .fuelOut) fuel es run
  else skipKeep run es

/-- The dispatch over the root `Run` element's children in `parse`. -/
def runChild (version : Version) (fuel : Nat) (n : Str)
    (_attrs : List (Str × Str)) (rest : List Event) (run : Run) : PResult Run :=
  if n = chars "GameIcon" then
    image (fun i r => r.set_game_icon i) rest run
  else if n = chars "GameName" then
    text (fun t r => r.set_game_name t) rest run
  else if n = chars "CategoryName" then
    text (fun t r => r.set_category_name t) rest run
  else if n = chars "Offset" then
    time_span (fun t r => r.set_offset t) rest run
  else if n = chars "AttemptCount" then
    text_err (fun t r =>
      match parseU32 t with
      | some v => .ok (r.set_attempt_count v)
      | none => .error .Int) rest run
  else if n = chars "AttemptHistory" then
    parse_attempt_history version fuel rest run
  else if n = chars "RunHistory" then
    parse_run_history version fuel rest run
  else if n = chars "Metadata" then
    match parse_metadata version fuel rest run.metadata with
    | .ok md rest2 => .ok { run with metadata := md } rest2
    | .err e => .err e
    | .aborted => .aborted
    | .fuelOut => .fuelOut
  else if n = chars "Segments" then
    parse_children (fun n2 _ rest2 (r : Run) =>
      if n2 = chars "Segment" then
        match parse_segment version fuel rest2 r with
        | .ok (seg, r2) rest3 => .ok (r2.push_segment seg) rest3
        | .err e => .err e
        | .aborted => .aborted
        | .fuelOut => .fuelOut
      else skipKeep r rest2) fuel rest run
  else if n = chars "AutoSplitterSettings" then
    skipKeep run rest
  else skipKeep run rest

/-- The callback `parse` hands to `parse_base`: a root element named `Run`
reads the optional `version` attribute and its children; any other root
element does nothing and returns `Ok`. -/
def rootHandler (fuel : Nat) (n : Str) (attrs : List (Str × Str))
    (es : List Event) (run : Run) : PResult Run :=
  if n = chars "Run" then
    match computeVersion attrs with
    | .error e => .err e
    | .ok version => parse_children (runChild version fuel) fuel es run
  else .ok run es

/-- `parse`: find the first element, process it when it is named `Run`, then
attach the caller-supplied path to the run. The fuel handed to the loops is
one more than the number of events, which no loop can exhaust. -/
def parse (es : List Event) (path : Option Str) : PResult Run :=
  match parse_base (rootHandler (es.length + 1)) es Run.new with
  | .ok run rest => .ok (run.set_path path) rest
  | .err e => .err e
  | .aborted => .aborted
  | .fuelOut => .fuelOut

/-- Whether an event is an element-open. -/
def isStartEv : Event → Bool
  | .start _ _ => true
  | _ => false

/-- A version-1.5.0.0 document containing both a `RunHistory` (one entry,
id 7, real time 9 s) and an `AttemptHistory` (one entry, id 1, real time
12.5 s). -/
def bothHistoriesDoc : List Event :=
  [.start (chars "Run") [(chars "version", chars "1.5.0.0")],
     .start (chars "RunHistory") [],
       .start (chars "Attempt") [(chars "id", chars "7")],
         .start (chars "RealTime") [], .text (chars "9"), .close,
       .close,
     .close,
     .start (chars "AttemptHistory") [],
       .start (chars "Attempt") [(chars "id", chars "1")],
         .start (chars "RealTime") [], .text (chars "12.5"), .close,
       .close,
     .close,
   .close]

/-- The same document with version 1.4.1.0 instead. -/
def bothHistoriesOldDoc : List Event :=
  [.start (chars "Run") [(chars "version", chars "1.4.1.0")],
     .start (chars "RunHistory") [],
       .start (chars "Attempt") [(chars "id", chars "7")],
         .start (chars "RealTime") [], .text (chars "9"), .close,
       .close,
     .close,
     .start (chars "AttemptHistory") [],
       .start (chars "Attempt") [(chars "id", chars "1")],
         .start (chars "RealTime") [], .text (chars "12.5"), .close,
       .close,
     .close,
   .close]

/-- A version-1.6.0.0 document whose `Platform` carries
`usesEmulator="Maybe"`. -/
def maybeEmulatorDoc : List Event :=
  [.start (chars "Run") [(chars "version", chars "1.6.0.0")],
     .start (chars "Metadata") [],
       .start (chars "Platform") [(chars "usesEmulator", chars "Maybe")],
         .text (chars "PS2"), .close,
     .close,
   .close]

/-- A version-1.6.0.0 document whose `Platform` has no `usesEmulator`
attribute at all. -/
def noEmulatorAttrDoc : List Event :=
  [.start (chars "Run") [(chars "version", chars "1.6.0.0")],
     .start (chars "Metadata") [],
       .start (chars "Platform") [], .text (chars "PS2"), .close,
     .close,
   .close]

/-- A version-1.6.0.0 document whose `Platform` carries
`usesEmulator="False"` and the text `PS2`. -/
def platformOkDoc : List Event :=
  [.start (chars "Run") [(chars "version", chars "1.6.0.0")],
     .start (chars "Metadata") [],
       .start (chars "Platform") [(chars "usesEmulator", chars "False")],
         .text (chars "PS2"), .close,
     .close,
   .close]

/-- A document whose `Offset` element has no text (it closes immediately,
which is also what an expanded self-closed `<Offset/>` produces). -/
def emptyOffsetDoc : List Event :=
  [.start (chars "Run") [],
     .start (chars "Offset") [], .close,
   .close]

/-- A 216-character element text: 212 `A`s followed by `AA==`, whose base64
suffix decodes successfully to the single byte 0. -/
def shortDecodeImageText : Str := List.replicate 212 'A' ++ chars "AA=="

/-- A minimal well-formed `Run` document. -/
def minimalRunDoc : List Event := [.start (chars "Run") [], .close]

/-- A document whose `GameIcon` carries `shortDecodeImageText`. -/
def panicIconDoc : List Event :=
  [.start (chars "Run") [],
     .start (chars "GameIcon") [], .text shortDecodeImageText, .close,
   .close]

theorem strFind_take (ch : Char) : ∀ (l : Str) (d : Nat),
    strFind ch l = some d → l.take d = takeUntilChar ch l := by
  intro l
  induction l with
  | nil => intro d h; simp [strFind] at h
  | cons c cs ih =>
    intro d h
    by_cases hc : c = ch
    · simp [strFind, hc] at h
      simp [takeUntilChar, hc, ← h]
    · simp [strFind, hc] at h
      obtain ⟨d2, hd2, rfl⟩ := h
      simp [takeUntilChar, hc, List.take_succ_cons, ih d2 hd2]

theorem strFind_drop (ch : Char) : ∀ (l : Str) (d : Nat),
    strFind ch l = some d → l.drop (d + 1) = (dropUntilChar ch l).drop 1 := by
  intro l
  induction l with
  | nil => intro d h; simp [strFind] at h
  | cons c cs ih =>
    intro d h
    by_cases hc : c = ch
    · simp [strFind, hc] at h
      simp [dropUntilChar, hc, ← h]
    · simp [strFind, hc] at h
      obtain ⟨d2, hd2, rfl⟩ := h
      simpa [dropUntilChar, hc] using ih d2 hd2

/-- C1: a time-span text containing both `.` and `:` with the first `.`
before the first `:` is parsed as Encoding B (the substring before the first
`.` as a whole-day count added to the remainder parsed as a time-of-day);
any other text is parsed as Encoding A (a plain signed decimal number of
seconds); `12.5` parses as 12.5 seconds (12500000000 ns) and `1.02:30:00`
as 1 day plus 2h30m. -/
theorem C1_time_span_encoding_dispatch :
    (∀ t : Str, dotBeforeColon t = true → parseTimeSpanText t = specEncodingB t) ∧
    (∀ t : Str, dotBeforeColon t = false → parseTimeSpanText t = encodingA t) ∧
    parseTimeSpanText (chars "12.5") = .ok (25 * nanosPerSecond / 2) ∧
    parseTimeSpanText (chars "1.02:30:00") =
      .ok (fromDays 1 + (2 * 3600 + 30 * 60) * nanosPerSecond) := by
  refine ⟨?_, ?_, by decide, by decide⟩
  · intro t h
    rcases hd : strFind '.' t with _ | d <;> rcases hc : strFind ':' t with _ | c <;>
      simp [dotBeforeColon, hd, hc] at h
    rw [parseTimeSpanText, hd, hc]
    simp only [h, if_true]
    rw [specEncodingB, ← strFind_take '.' t d hd, ← strFind_drop '.' t d hd]
  · intro t h
    rcases hd : strFind '.' t with _ | d <;> rcases hc : strFind ':' t with _ | c <;>
      simp [dotBeforeColon, hd, hc] at h <;>
      rw [parseTimeSpanText, hd, hc] <;> simp [encodingA, h]

/-- C1 witness: the dispatch theorem applied at `1.02:30:00` (Encoding B
trigger true) and at `12.5` (trigger false). -/
theorem C1_time_span_encoding_dispatch_w :
    parseTimeSpanText (chars "1.02:30:00") = specEncodingB (chars "1.02:30:00") ∧
    parseTimeSpanText (chars "12.5") = encodingA (chars "12.5") :=
  ⟨C1_time_span_encoding_dispatch.1 (chars "1.02:30:00") (by decide),
   C1_time_span_encoding_dispatch.2.1 (chars "12.5") (by decide)⟩

/-- C2: for version ≥ 1.5.0.0 the whole `RunHistory` subtree is skipped with
the run unchanged and attempts come only from `AttemptHistory`; for version
< 1.5.0.0 the whole `AttemptHistory` subtree is skipped and attempts come
only from `RunHistory`; a skip never contributes an attempt; on the concrete
document with both subtrees the 1.5.0.0 parse keeps only the
`AttemptHistory` entry (index 1, 12.5 s) and the 1.4.1.0 parse keeps only
the `RunHistory` entry (index 7, 9 s). -/
theorem C2_history_version_gate :
    (∀ (v : Version) (fuel : Nat) (es : List Event) (run : Run),
      Version.geb v ⟨1, 5, 0, 0⟩ = true →
      parse_run_history v fuel es run = skipKeep run es) ∧
    (∀ (v : Version) (fuel : Nat) (es : List Event) (run : Run),
      Version.geb v ⟨1, 5, 0, 0⟩ = false →
      parse_attempt_history v fuel es run = skipKeep run es) ∧
    (∀ (run run2 : Run) (es rest : List Event),
      skipKeep run es = .ok run2 rest → run2 = run) ∧
    parse bothHistoriesDoc none =
      .ok { Run.new with
              attempts := [⟨1, ⟨some 12500000000, none⟩, none, none, none⟩] } [] ∧
    parse bothHistoriesOldDoc none =
      .ok { Run.new with
              attempts := [⟨7, ⟨some 9000000000, none⟩, none, none, none⟩] } [] := by
  refine ⟨?_, ?_, ?_, by decide, by decide⟩
  · intro v fuel es run h
    simp [parse_run_history, h]
  · intro v fuel es run h
    simp [parse_attempt_history, h]
  · intro run run2 es rest h
    unfold skipKeep at h
    rcases he : end_tag es with _ | _ | _ | _ <;> rw [he] at h <;>
      simp_all

/-- C2 witness: both gate directions applied at the boundary versions on a
concrete event list. -/
theorem C2_history_version_gate_w :
    parse_run_history ⟨1, 5, 0, 0⟩ 3 [Event.close] Run.new =
      skipKeep Run.new [Event.close] ∧
    parse_attempt_history ⟨1, 4, 1, 0⟩ 3 [Event.close] Run.new =
      skipKeep Run.new [Event.close] ∧
    Run.new = Run.new :=
  ⟨C2_history_version_gate.1 ⟨1, 5, 0, 0⟩ 3 [Event.close] Run.new (by decide),
   C2_history_version_gate.2.1 ⟨1, 4, 1, 0⟩ 3 [Event.close] Run.new (by decide),
   C2_history_version_gate.2.2.1 Run.new Run.new [Event.close] [] (by decide)⟩

/-- C3 counterexample: on `1.2.3.4.x` the fifth dot-separated component `x`
does not parse as an unsigned integer, yet `parse_version` succeeds — the
`zip` against the four-slot default array never visits components beyond the
fourth, so their parse failure is not fatal, contradicting the claim that
"any component parse failure" is a fatal numeric-format error. -/
theorem C3_extra_component_not_fatal :
    parse_version (chars "1.2.3.4.x") = .ok ⟨1, 2, 3, 4⟩ ∧
    parseU32 (chars "x") = none := by
  exact ⟨by decide, by decide⟩

/-- C3 (amended): a missing version attribute yields (1,0,0,0); each of the
first four dot-separated components parses as `u32` with trailing omitted
components defaulting to 0 and a parse failure among the first four being a
fatal numeric-format error; components beyond the fourth are ignored without
being parsed; versions compare lexicographically as 4-tuples, so
`1.4.1.0 < 1.5.0.0` and `1.3.0.0 = 1.3.0.0`. -/
theorem C3_version_parse_and_order :
    computeVersion [] = .ok ⟨1, 0, 0, 0⟩ ∧
    parse_version (chars "1.4.1.0") = .ok ⟨1, 4, 1, 0⟩ ∧
    parse_version (chars "1.5.0.0") = .ok ⟨1, 5, 0, 0⟩ ∧
    parse_version (chars "1.3") = .ok ⟨1, 3, 0, 0⟩ ∧
    parse_version (chars "1.x.3") = .error .Int ∧
    Version.ltb ⟨1, 4, 1, 0⟩ ⟨1, 5, 0, 0⟩ = true ∧
    (⟨1, 3, 0, 0⟩ : Version) = ⟨1, 3, 0, 0⟩ ∧
    (∀ v w : Version, Version.ltb v w = true ↔
      (v.a < w.a ∨ (v.a = w.a ∧ (v.b < w.b ∨ (v.b = w.b ∧
        (v.c < w.c ∨ (v.c = w.c ∧ v.d < w.d))))))) := by
  refine ⟨by decide, by decide, by decide, by decide, by decide, by decide, rfl, ?_⟩
  intro v w
  simp [Version.ltb]

/-- C3 witness: the lexicographic characterization applied at a concrete
pair of versions. -/
theorem C3_version_parse_and_order_w :
    Version.ltb ⟨2, 0, 0, 1⟩ ⟨2, 0, 1, 0⟩ = true :=
  (C3_version_parse_and_order.2.2.2.2.2.2.2 ⟨2, 0, 0, 1⟩ ⟨2, 0, 1, 0⟩).mpr
    (by simp)

/-- C4: the non-optional time-span combinator maps empty (absent) text to
the zero duration rather than failing: the empty text parses to zero, the
`time_span` combinator on an immediately-closing `Offset` element sets a
zero offset on any run, and parsing a document whose `Offset` element is
empty succeeds with offset 0. -/
theorem C4_empty_offset_is_zero :
    parseTimeSpanText [] = .ok 0 ∧
    (∀ (rest : List Event) (run : Run),
      time_span (fun ts r => r.set_offset ts) (Event.close :: rest) run =
        .ok (run.set_offset 0) rest) ∧
    parse emptyOffsetDoc (some (chars "p")) =
      .ok { Run.new with offset := 0, path := some (chars "p") } [] := by
  exact ⟨by decide, fun rest run => rfl, by decide⟩

/-- C4 witness: the combinator-level fact applied at a concrete event list
and a run with a non-zero offset, observing that the offset is overwritten
with zero. -/
theorem C4_empty_offset_is_zero_w :
    time_span (fun ts r => r.set_offset ts) (Event.close :: [])
        { Run.new with offset := 5 } =
      .ok ({ Run.new with offset := 5 }.set_offset 0) [] :=
  C4_empty_offset_is_zero.2.1 [] { Run.new with offset := 5 }

/-- C5 counterexample: a version-1.6.0.0 document whose `Platform` element
has no `usesEmulator` attribute does not parse successfully — the source
reads the attribute with the required-attribute combinator, so the whole
parse fails with `AttributeNotFound`, contradicting the claim that the
attribute is optional. -/
theorem C5_missing_usesEmulator_fatal :
    parse noEmulatorAttrDoc none = .err .AttributeNotFound := by
  decide

/-- C5 (amended): for every document with version at least 1.6.0.0 whose
Metadata contains a `Platform` element without a `usesEmulator` attribute,
parsing fails with `AttributeNotFound` (the attribute is required, read
through `attribute_err` before the element text is consumed); when the
attribute is present and a valid boolean, the platform name is set from the
element's text. -/
theorem C5_usesEmulator_required :
    (∀ (v : Version) (fuel : Nat) (attrs : List (Str × Str))
       (rest : List Event) (md : RunMetadata),
      Version.geb v ⟨1, 6, 0, 0⟩ = true →
      attr_find attrs (chars "usesEmulator") = none →
      parse_metadata v (fuel + 1)
          (Event.start (chars "Platform") attrs :: rest) md =
        .err .AttributeNotFound) ∧
    parse platformOkDoc none =
      .ok { Run.new with
              metadata := { platform_name := chars "PS2" } } [] := by
  refine ⟨?_, by decide⟩
  intro v fuel attrs rest md hv hattr
  rw [parse_metadata, hv]
  simp only [if_true]
  simp only [parse_children]
  simp +decide [hattr]

/-- C5 witness: the amended theorem applied at version 1.6.0.0 with an empty
attribute list. -/
theorem C5_usesEmulator_required_w :
    parse_metadata ⟨1, 6, 0, 0⟩ 1
        (Event.start (chars "Platform") [] :: [Event.close]) {} =
      .err .AttributeNotFound :=
  C5_usesEmulator_required.1 ⟨1, 6, 0, 0⟩ 0 [] [Event.close] {}
    (by decide) (by decide)

set_option maxRecDepth 8192 in
/-- C6 (code bug): the image combinator is not always non-fatal. The base64
suffix `AA==` of the 216-character text `shortDecodeImageText` decodes
successfully to the single byte 0, so the decode step evaluates the slice
`data[2..data.len() - 1]` with `data.len() = 1`, whose start exceeds its
end — a panic, modelled as the out-of-bounds/aborted outcome. An
under-length text does yield an empty buffer without error, as claimed. -/
theorem C6_image_short_decode_aborts :
    base64Decode (chars "AA==") = some [0] ∧
    imageDecodeStep shortDecodeImageText = .oob ∧
    image (fun i (r : Run) => r.set_game_icon i)
        [Event.text shortDecodeImageText, Event.close] Run.new = .aborted ∧
    imageDecodeStep (chars "tooShort") = .bytes [] := by
  exact ⟨by decide, by decide, by decide, by decide⟩

/-- C7: the optional time-span combinator maps empty text to `none` (absent)
rather than a zero duration — the empty text parses to `none`, the
combinator on an immediately-closing element hands `none` to its callback,
a `some` result can only come from non-empty text, and a zero duration does
arise from explicitly zero-valued text such as `0`. -/
theorem C7_optional_empty_is_absent :
    parseTimeSpanOptText [] = .ok none ∧
    (∀ (rest : List Event) (t : Time),
      time_span_opt (fun v tm => { tm with real_time := v })
          (Event.close :: rest) t =
        .ok { t with real_time := none } rest) ∧
    (∀ (s : Str) (v : TimeSpan),
      parseTimeSpanOptText s = .ok (some v) → s ≠ []) ∧
    parseTimeSpanOptText (chars "0") = .ok (some 0) := by
  refine ⟨by decide, fun rest t => rfl, ?_, by decide⟩
  intro s v h hs
  subst hs
  simp [parseTimeSpanOptText] at h

/-- C7 witness: the `some`-implies-non-empty direction applied at the text
`0`, and the combinator-level fact at a concrete list and time. -/
theorem C7_optional_empty_is_absent_w :
    chars "0" ≠ [] ∧
    time_span_opt (fun v tm => { tm with real_time := v })
        (Event.close :: []) (Time.mk (some 5) none) =
      .ok (Time.mk none none) [] :=
  ⟨C7_optional_empty_is_absent.2.2.1 (chars "0") 0 (by decide),
   C7_optional_empty_is_absent.2.1 [] (Time.mk (some 5) none)⟩

/-- C8: boolean parsing accepts exactly the literals `True` and `False`; any
other text is the boolean error; and a version-1.6.0.0 document whose
`Platform` carries `usesEmulator="Maybe"` fails the whole parse with that
error, returning no run. -/
theorem C8_bool_literals :
    (∀ s : Str, parse_bool s = .ok true ↔ s = chars "True") ∧
    (∀ s : Str, parse_bool s = .ok false ↔ s = chars "False") ∧
    (∀ s : Str, s ≠ chars "True" → s ≠ chars "False" →
      parse_bool s = .error .Bool) ∧
    parse maybeEmulatorDoc none = .err .Bool := by
  have tf : chars "True" ≠ chars "False" := by decide
  refine ⟨?_, ?_, ?_, by decide⟩
  · intro s
    by_cases h : s = chars "True"
    · subst h; simp [parse_bool]
    · by_cases h2 : s = chars "False"
      · subst h2; simp [parse_bool, h]
      · simp [parse_bool, h, h2]
  · intro s
    by_cases h : s = chars "True"
    · subst h; simp [parse_bool, tf]
    · by_cases h2 : s = chars "False"
      · subst h2; simp [parse_bool, h]
      · simp [parse_bool, h, h2]
  · intro s h1 h2
    simp [parse_bool, h1, h2]

/-- C8 witness: the three general parts applied at the concrete texts
`True`, `False` and `Maybe`. -/
theorem C8_bool_literals_w :
    parse_bool (chars "True") = .ok true ∧
    parse_bool (chars "False") = .ok false ∧
    parse_bool (chars "Maybe") = .error .Bool :=
  ⟨(C8_bool_literals.1 (chars "True")).mpr rfl,
   (C8_bool_literals.2.1 (chars "False")).mpr rfl,
   C8_bool_literals.2.2.1 (chars "Maybe") (by decide) (by decide)⟩

set_option maxRecDepth 8192 in
/-- C9 (code bug): normally `parse` is all-or-nothing — on the minimal
document it returns a fully populated run with the caller-supplied path
attached — but on a document whose `GameIcon` text makes the image decode
slice out of bounds, the parse aborts (a Rust panic), returning neither a
run nor a typed error. -/
theorem C9_parse_all_or_nothing_abort :
    parse minimalRunDoc (some (chars "p")) =
      .ok (Run.new.set_path (some (chars "p"))) [] ∧
    parse panicIconDoc none = .aborted := by
  exact ⟨by decide, by decide⟩

/-- Skipping any prefix of non-open events does not change `parse_base`. -/
theorem parse_base_append {σ : Type}
    (f : Str → List (Str × Str) → List Event → σ → PResult σ) :
    ∀ (pre es : List Event) (s : σ), (∀ e ∈ pre, isStartEv e = false) →
      parse_base f (pre ++ es) s = parse_base f es s := by
  intro pre
  induction pre with
  | nil => intro es s _; rfl
  | cons e pr ih =>
    intro es s h
    cases e with
    | start n attrs =>
      exact absurd (h _ (List.mem_cons_self _ _)) (by simp [isStartEv])
    | close =>
      simpa [parse_base] using ih es s (fun e he => h e (List.mem_cons_of_mem _ he))
    | text t =>
      simpa [parse_base] using ih es s (fun e he => h e (List.mem_cons_of_mem _ he))
    | other =>
      simpa [parse_base] using ih es s (fun e he => h e (List.mem_cons_of_mem _ he))

/-- C10: when the first element of the document is not named `Run`, `parse`
raises no error: it returns the default-initialized empty run with the
caller-supplied path attached and leaves every event after that element
unconsumed. -/
theorem C10_non_run_root_is_ok :
    ∀ (pre : List Event) (n : Str) (attrs : List (Str × Str))
      (rest : List Event) (path : Option Str),
      (∀ e ∈ pre, isStartEv e = false) →
      n ≠ chars "Run" →
      parse (pre ++ Event.start n attrs :: rest) path =
        .ok (Run.new.set_path path) rest := by
  intro pre n attrs rest path hpre hn
  unfold parse
  rw [parse_base_append _ pre (Event.start n attrs :: rest) Run.new hpre]
  simp [parse_base, rootHandler, hn]

/-- C10 witness: applied to a document whose root element is named `X`,
preceded by a skippable event and followed by unconsumed junk. -/
theorem C10_non_run_root_is_ok_w :
    parse ([Event.other] ++ Event.start (chars "X") [] :: [Event.text (chars "junk")])
        (some (chars "p")) =
      .ok (Run.new.set_path (some (chars "p"))) [Event.text (chars "junk")] :=
  C10_non_run_root_is_ok [Event.other] (chars "X") [] [Event.text (chars "junk")]
    (some (chars "p")) (by simp [isStartEv]) (by decide)

end LS
